import Mathlib

/-!
Verification of the H3 world-geometry generator's mesh-generation and
export pipeline.

The Rust source is shallowly embedded as follows:

* Finite floating-point coordinate values are modelled as exact rationals
  (`ℚ`); the counterexample inputs below use dyadic rationals for which the
  `f32`/`f64` arithmetic of the source is exact, so they transfer to the
  real code.  Possibly non-finite projected values (the result of
  `lat_lng_to_3d`, which can be NaN/inf for non-finite inputs) are modelled
  by the type `FVal`, with an explicit `nonfin` constructor.
* `lat_lng_to_3d` computes with `cos`/`sin`; the pipeline functions are
  parameterised over a projector `proj : ℚ → ℚ → ℚ → F3` standing for it.
* The H3 grid library (`h3o`: base cells, children, pentagon flags, cell
  centers and boundary vertexes) is external to the repository and is
  modelled as an explicit provider structure consumed by `gen_world_chunks`.
* File I/O is elided: `write_binary_data` returns the byte list the Rust
  function writes to disk, and `gen_world_chunks` returns the list of
  exported (descriptor, binary) pairs instead of creating files.  The
  little-endian encoding of an `f32` is an arbitrary 4-byte function `enc`
  passed as a parameter; the claims under study depend only on its length.
* Rust's `usize`/`u32` values are modelled as `ℕ` with explicit `% 2 ^ 32`
  where the source performs an `as u32` narrowing cast, and the `i64`
  components of the quantization key as `ℤ` (the source's scaled
  coordinates are far inside the `i64` range, so no wrap is modelled).
-/

namespace H3WorldGeo

/-- A floating-point value: either a finite value (modelled exactly as a
rational) or a non-finite one (NaN or ±inf). -/
inductive FVal where
  | fin (q : ℚ)
  | nonfin
deriving DecidableEq, Repr

/-- Rust's `f32::is_finite`. -/
def FVal.isFinite : FVal → Bool
  | .fin _ => true
  | .nonfin => false

/-- The rational value of a finite `FVal` (only used after a finiteness
check; the default for `nonfin` is never reached by the pipeline). -/
def FVal.toRat : FVal → ℚ
  | .fin q => q
  | .nonfin => 0

/-- A finite 3D position, the element type of `Mesh.vertices`. -/
abbrev Q3 := ℚ × ℚ × ℚ

/-- A possibly non-finite 3D point, the result type of the projector. -/
abbrev F3 := FVal × FVal × FVal

/-- `center_3d.iter().all(|&x| x.is_finite())` from `world_gen.rs`. -/
def allFinite (v : F3) : Bool :=
  v.1.isFinite && v.2.1.isFinite && v.2.2.isFinite

/-- Extract the rational coordinates of a point that passed `allFinite`. -/
def toQ3 (v : F3) : Q3 := (v.1.toRat, v.2.1.toRat, v.2.2.toRat)

/-- `const SCALE: f64 = 1_000_000_000.0` from `mesh.rs`. -/
def SCALE : ℚ := 1000000000

/-- One component of the quantization key: `(x as f64 * SCALE) as i64` from
`Mesh::add_vertex`, i.e. truncation toward zero of `x * 10^9`.  Stated
directly on the reduced fraction `x = num / den`: the scaled value is the
fraction `(num * 10^9) / den`, whose truncation toward zero is
`sign num * (natAbs num * 10^9 / den)` with `ℕ`-division (this form
kernel-reduces on concrete rationals, unlike `ℚ`-multiplication). -/
def quantCoord (x : ℚ) : ℤ :=
  Int.sign x.num * ((x.num.natAbs * 1000000000 / x.den : ℕ) : ℤ)

/-- The quantization key `[(v[0]*SCALE) as i64, …]` from `Mesh::add_vertex`. -/
def quantKey (v : Q3) : ℤ × ℤ × ℤ :=
  (quantCoord v.1, quantCoord v.2.1, quantCoord v.2.2)

/-- The dedup granularity `1 / SCALE` the spec calls the quantization
epsilon. -/
def quantEps : ℚ := mkRat 1 1000000000

/-- The `Mesh` struct from `mesh.rs`: parallel vertex/color sequences,
flattened triangle indices, and the dedup map.  The `HashMap<[i64;3],usize>`
is modelled as an association list queried by `mapFind`. -/
structure Mesh where
  vertices : List Q3
  colors : List Q3
  indices : List ℕ
  vertex_map : List ((ℤ × ℤ × ℤ) × ℕ)
deriving DecidableEq, Repr

/-- `Mesh::new()` / `Mesh::default()`. -/
def emptyMesh : Mesh := ⟨[], [], [], []⟩

/-- `HashMap::get` on the modelled map (first binding wins, matching
insert-once usage in the source). -/
def mapFind (k : ℤ × ℤ × ℤ) : List ((ℤ × ℤ × ℤ) × ℕ) → Option ℕ
  | [] => none
  | kv :: rest => if kv.1 = k then some kv.2 else mapFind k rest

/-- `Mesh::add_vertex` from `mesh.rs`: deduplicating vertex insertion.
Returns the index and the updated mesh (the Rust method mutates `self`). -/
def Mesh.add_vertex (m : Mesh) (vertex : Q3) (color : Q3) : ℕ × Mesh :=
  let key := quantKey vertex
  match mapFind key m.vertex_map with
  | some index => (index, m)
  | none =>
      let index := m.vertices.length
      (index,
        { vertices := m.vertices ++ [vertex]
          colors := m.colors ++ [color]
          indices := m.indices
          vertex_map := (key, index) :: m.vertex_map })

/-- `Mesh::add_triangle`: appends the three indices, no range check. -/
def Mesh.add_triangle (m : Mesh) (t : ℕ × ℕ × ℕ) : Mesh :=
  { m with indices := m.indices ++ [t.1, t.2.1, t.2.2] }

/-- `MeshStats` from `mesh.rs`. -/
structure MeshStats where
  vertex_count : ℕ
  triangle_count : ℕ
deriving DecidableEq, Repr

/-- `Mesh::stats`: `triangle_count = indices.len() / 3`. -/
def Mesh.stats (m : Mesh) : MeshStats :=
  ⟨m.vertices.length, m.indices.length / 3⟩

/-- `triangulate_pentagon` from `mesh.rs`: fan triangulation
`(center, boundary[i], boundary[(i+1) % len])` for each `i`. -/
def triangulate_pentagon (center_idx : ℕ) (boundary : List ℕ) : List (ℕ × ℕ × ℕ) :=
  (List.range boundary.length).map fun i =>
    (center_idx, boundary.getD i 0, boundary.getD ((i + 1) % boundary.length) 0)

/-- `ProcessingStats` from `world_gen.rs`. -/
structure ProcessingStats where
  pentagon_count : ℕ
  hexagon_count : ℕ
  invalid_coords : ℕ
  cells_processed : ℕ
deriving DecidableEq, Repr

/-- `ProcessingStats::default()`. -/
def emptyStats : ProcessingStats := ⟨0, 0, 0, 0⟩

/-- The per-cell recoverable errors produced by `process_single_cell`
(free-text strings in the source, modelled as an enum). -/
inductive CellError where
  | invalidCoordinates
  | insufficientBoundary
deriving DecidableEq, Repr

/-- What the H3 library provides for one cell: pentagon flag, center
lat/lng, and the boundary vertex lat/lngs (`cell.vertexes()` order). -/
structure CellData where
  isPentagon : Bool
  centerLat : ℚ
  centerLng : ℚ
  boundary : List (ℚ × ℚ)
deriving DecidableEq, Repr

/-- Stands for `lat_lng_to_3d` (degree-to-radian conversion and trig are
not embeddable exactly; the pipeline only inspects finiteness and feeds the
result to `Mesh.add_vertex`). Arguments: lat, lng, radius. -/
abbrev Projector := ℚ → ℚ → ℚ → F3

/-- Result of `process_single_cell`: the `Result` value together with the
final state of the two `&mut` parameters. -/
structure CellOutcome where
  result : Except CellError Unit
  mesh : Mesh
  stats : ProcessingStats
deriving Repr

/-- The boundary-vertex loop of `process_single_cell`: project each
boundary vertex, on a non-finite result bump `invalid_coords` and skip just
that vertex, otherwise add it to the mesh and record its index in order. -/
def processBoundary (proj : Projector) (radius : ℚ) :
    List (ℚ × ℚ) → Mesh → ProcessingStats → Mesh × ProcessingStats × List ℕ
  | [], m, s => (m, s, [])
  | (lat, lng) :: rest, m, s =>
      let v3 := proj lat lng radius
      if allFinite v3 then
        let r := m.add_vertex (toQ3 v3) (1, 1, 1)
        let rec' := processBoundary proj radius rest r.2 s
        (rec'.1, rec'.2.1, r.1 :: rec'.2.2)
      else
        processBoundary proj radius rest m
          { s with invalid_coords := s.invalid_coords + 1 }

/-- The opening classification of `process_single_cell`: bump
`pentagon_count` or `hexagon_count` according to `cell.is_pentagon()`. -/
def bumpShapeCount (cd : CellData) (s : ProcessingStats) : ProcessingStats :=
  if cd.isPentagon then { s with pentagon_count := s.pentagon_count + 1 }
  else { s with hexagon_count := s.hexagon_count + 1 }

/-- The tail of `process_single_cell` after the boundary loop: with the
center's `add_vertex` result `c` and the boundary loop's result `b`,
fan-triangulate when at least 3 valid boundary vertices remain, otherwise
fail with the insufficient-boundary error (keeping the vertices already
added). -/
def finishCell (c : ℕ × Mesh) (b : Mesh × ProcessingStats × List ℕ) : CellOutcome :=
  if 3 ≤ b.2.2.length then
    ⟨.ok (), (triangulate_pentagon c.1 b.2.2).foldl Mesh.add_triangle b.1, b.2.1⟩
  else
    ⟨.error .insufficientBoundary, b.1, b.2.1⟩

/-- `process_single_cell` from `world_gen.rs`. -/
def process_single_cell (proj : Projector) (radius : ℚ) (cd : CellData)
    (m : Mesh) (s : ProcessingStats) : CellOutcome :=
  if allFinite (proj cd.centerLat cd.centerLng radius) then
    finishCell
      (m.add_vertex (toQ3 (proj cd.centerLat cd.centerLng radius)) (1, 1, 1))
      (processBoundary proj radius cd.boundary
        (m.add_vertex (toQ3 (proj cd.centerLat cd.centerLng radius)) (1, 1, 1)).2
        (bumpShapeCount cd s))
  else
    ⟨.error .invalidCoordinates, m,
      { bumpShapeCount cd s with
          invalid_coords := (bumpShapeCount cd s).invalid_coords + 1 }⟩

/-- The per-chunk cell loop of `gen_world_chunks`: run
`process_single_cell` on each cell, bumping `cells_processed` only on
success (errors are logged and swallowed). -/
def processCells (proj : Projector) (radius : ℚ) :
    List CellData → Mesh → ProcessingStats → Mesh × ProcessingStats
  | [], m, s => (m, s)
  | cd :: rest, m, s =>
      let o := process_single_cell proj radius cd m s
      let s' :=
        match o.result with
        | .ok _ => { o.stats with cells_processed := o.stats.cells_processed + 1 }
        | .error _ => o.stats
      processCells proj radius rest o.mesh s'

/-- `u32::to_le_bytes` (each entry is one byte value `< 256`);
the argument is the already-narrowed `u32` value. -/
def u32le (n : ℕ) : List ℕ :=
  [n % 256, n / 256 % 256, n / 65536 % 256, n / 16777216 % 256]

/-- Concatenation of the per-element byte blocks a Rust
`for`-loop of `extend_from_slice` calls produces. -/
def bytesConcat (f : α → List ℕ) : List α → List ℕ
  | [] => []
  | x :: xs => f x ++ bytesConcat f xs

/-- The 12-byte block one `[f32; 3]` contributes (three `to_le_bytes`
calls); `enc` is the 4-byte little-endian `f32` encoding. -/
def encTriple (enc : ℚ → List ℕ) (v : Q3) : List ℕ :=
  enc v.1 ++ enc v.2.1 ++ enc v.2.2

/-- `write_binary_data` from `export.rs`: positions, then colors, then
indices narrowed with `as u32` (i.e. reduced `% 2^32`), all little-endian.
The returned list is the byte content written to the file. -/
def write_binary_data (enc : ℚ → List ℕ) (m : Mesh) : List ℕ :=
  bytesConcat (encTriple enc) m.vertices ++
  bytesConcat (encTriple enc) m.colors ++
  bytesConcat (fun i => u32le (i % 4294967296)) m.indices

/-- The numeric content of the glTF JSON document `export_gltf` emits:
accessor counts, the three buffer views, and the buffer byte length. -/
structure GltfDoc where
  accessor0Count : ℕ
  accessor1Count : ℕ
  accessor2Count : ℕ
  view0Offset : ℕ
  view0Length : ℕ
  view1Offset : ℕ
  view1Length : ℕ
  view2Offset : ℕ
  view2Length : ℕ
  bufferByteLength : ℕ
deriving DecidableEq, Repr

/-- `export_gltf` from `export.rs`: writes the binary file and builds the
scene descriptor whose sizes are computed arithmetically from the counts.
Returns (descriptor, binary bytes). -/
def export_gltf (enc : ℚ → List ℕ) (m : Mesh) : GltfDoc × List ℕ :=
  let vertex_buffer_size := m.vertices.length * 12
  let color_buffer_size := m.colors.length * 12
  let index_buffer_size := m.indices.length * 4
  (⟨m.vertices.length, m.colors.length, m.indices.length,
    0, vertex_buffer_size,
    vertex_buffer_size, color_buffer_size,
    vertex_buffer_size + color_buffer_size, index_buffer_size,
    vertex_buffer_size + color_buffer_size + index_buffer_size⟩,
   write_binary_data enc m)

/-- The fatal configuration errors of `gen_world_chunks` (format strings in
the source, modelled as an enum). -/
inductive GenError where
  | chunkResNotBelowWorldRes (chunk_res world_res : ℕ)
  | invalidChunkRes (r : ℕ)
  | invalidWorldRes (r : ℕ)
deriving DecidableEq, Repr

/-- The H3 grid-index library surface `gen_world_chunks` consumes: base
cells, `children(cell, res)`, and the per-cell data used by
`process_single_cell`.  Cells are opaque identifiers. -/
structure H3Provider where
  baseCells : List ℕ
  children : ℕ → ℕ → List ℕ
  cellData : ℕ → CellData

/-- Pointwise accumulation `global_stats.* += chunk_stats.*`. -/
def addStats (a b : ProcessingStats) : ProcessingStats :=
  ⟨a.pentagon_count + b.pentagon_count,
   a.hexagon_count + b.hexagon_count,
   a.invalid_coords + b.invalid_coords,
   a.cells_processed + b.cells_processed⟩

/-- `gen_world_chunks` from `world_gen.rs`.  Validation order matches the
source: the `chunk_res >= world_res` check precedes the two
`Resolution::try_from` range checks, and all three precede any grid
enumeration, cell processing, directory creation or export.  The success
value carries the aggregated stats and, in place of the files written to
`output/<prefix>/`, the per-chunk (descriptor, binary) pairs in chunk
order. -/
def gen_world_chunks (enc : ℚ → List ℕ) (prov : H3Provider) (proj : Projector)
    (radius : ℚ) (world_res chunk_res : ℕ) :
    Except GenError (ProcessingStats × List (GltfDoc × List ℕ)) :=
  if world_res ≤ chunk_res then
    .error (.chunkResNotBelowWorldRes chunk_res world_res)
  else if 15 < chunk_res then .error (.invalidChunkRes chunk_res)
  else if 15 < world_res then .error (.invalidWorldRes world_res)
  else
    let chunk_cells :=
      if chunk_res = 0 then prov.baseCells
      else (prov.baseCells.map (fun b => prov.children b chunk_res)).flatten
    let outs := chunk_cells.map fun cc =>
      let children := prov.children cc world_res
      let r := processCells proj radius (children.map prov.cellData)
        emptyMesh emptyStats
      (r.2, export_gltf enc r.1)
    let global := outs.foldl (fun acc o => addStats acc o.1) emptyStats
    .ok (global, outs.map (·.2))

/-- Little-endian decoding of consecutive 4-byte groups, the inverse view
of the index section written by `write_binary_data`; used to state what
value each written index actually denotes. -/
def decodeU32s : List ℕ → List ℕ
  | b0 :: b1 :: b2 :: b3 :: rest =>
      (b0 + 256 * b1 + 65536 * b2 + 16777216 * b3) :: decodeU32s rest
  | _ => []

/-- Well-formedness invariant of a `Mesh` maintained by the builder API:
map values are in-range vertex indices, triangle indices are in range, the
vertex/color sequences are parallel, and distinct map keys have distinct
indices (values determine keys). -/
abbrev WF (m : Mesh) : Prop :=
  (∀ kv ∈ m.vertex_map, kv.2 < m.vertices.length) ∧
  (∀ i ∈ m.indices, i < m.vertices.length) ∧
  m.colors.length = m.vertices.length ∧
  (∀ kv1 ∈ m.vertex_map, ∀ kv2 ∈ m.vertex_map, kv1.2 = kv2.2 → kv1.1 = kv2.1)

/-! Concrete objects used by witnesses and counterexamples. -/

/-- A stand-in 4-byte `f32` encoding (the claims under study depend only on
the encoding's length). -/
def enc0 : ℚ → List ℕ := fun _ => [0, 0, 0, 0]

/-- A one-vertex, one-triangle well-formed mesh. -/
def meshW : Mesh := ⟨[(0, 0, 0)], [(1, 1, 1)], [0, 0, 0], [((0, 0, 0), 0)]⟩

/-- A mesh whose single stored index `2^32 + 5` exceeds the `u32` range. -/
def meshBig : Mesh := ⟨[], [], [4294967301], []⟩

/-- A mesh whose single stored index is `5`. -/
def meshSmall : Mesh := ⟨[], [], [5], []⟩

/-- Position `(2⁻³⁰, 0, 0)`: first coordinate `≈ 0.931e-9`, quantizing
to key component `0`.  Exactly representable in `f32`, and its `f64`
product with `SCALE` is exact, so the value transfers to the source. -/
def pA : Q3 := (mkRat 1 1073741824, 0, 0)

/-- Position `(-2⁻³¹, 0, 0)`: first coordinate `≈ -0.466e-9`, quantizing
to key component `0` (truncation toward zero). -/
def pB : Q3 := (mkRat (-1) 2147483648, 0, 0)

/-- Position `(9·2⁻³³, 0, 0)`: first coordinate `≈ 1.048e-9`, quantizing
to key component `1`. -/
def pC : Q3 := (mkRat 9 8589934592, 0, 0)

/-- The placeholder full-intensity color `[1.0; 3]`. -/
def cW : Q3 := (1, 1, 1)

/-- A trivial grid provider (the validation failures under study occur
before the provider is consulted). -/
def trivProv : H3Provider := ⟨[], fun _ _ => [], fun _ => ⟨false, 0, 0, []⟩⟩

/-- A projector returning the all-zero finite point. -/
def trivProj : Projector := fun _ _ _ => (.fin 0, .fin 0, .fin 0)

/-- A projector whose first output coordinate is always non-finite. -/
def projBad : Projector := fun _ _ _ => (.nonfin, .fin 0, .fin 0)

/-- A projector returning the (finite) inputs themselves, so that distinct
lat/lng pairs give distinct positions. -/
def projGood : Projector := fun lat lng radius => (.fin lat, .fin lng, .fin radius)

/-- A hexagon-flagged cell datum with an empty boundary. -/
def cd0 : CellData := ⟨false, 0, 0, []⟩

/-- A hexagon-flagged cell datum with three distinct boundary vertices. -/
def cdTri : CellData := ⟨false, 0, 0, [(1, 0), (2, 0), (3, 0)]⟩

/-! ### Lemmas about the mesh builder -/

theorem mapFind_mem {k : ℤ × ℤ × ℤ} {v : ℕ} {l : List ((ℤ × ℤ × ℤ) × ℕ)}
    (h : mapFind k l = some v) : (k, v) ∈ l := by
  induction l with
  | nil => simp [mapFind] at h
  | cons kv rest ih =>
      rw [mapFind] at h
      split at h
      · next heq =>
          injection h with h2
          subst h2
          simp [← heq]
      · exact List.mem_cons_of_mem _ (ih h)

theorem add_vertex_found (m : Mesh) (v c : Q3) (i : ℕ)
    (h : mapFind (quantKey v) m.vertex_map = some i) :
    m.add_vertex v c = (i, m) := by
  simp [Mesh.add_vertex, h]

theorem add_vertex_fresh (m : Mesh) (v c : Q3)
    (h : mapFind (quantKey v) m.vertex_map = none) :
    m.add_vertex v c =
      (m.vertices.length,
        ⟨m.vertices ++ [v], m.colors ++ [c], m.indices,
         (quantKey v, m.vertices.length) :: m.vertex_map⟩) := by
  simp [Mesh.add_vertex, h]

theorem add_vertex_indices (m : Mesh) (v c : Q3) :
    (m.add_vertex v c).2.indices = m.indices := by
  cases h : mapFind (quantKey v) m.vertex_map with
  | none => rw [add_vertex_fresh m v c h]
  | some i => rw [add_vertex_found m v c i h]

theorem add_vertex_len_le (m : Mesh) (v c : Q3) :
    m.vertices.length ≤ (m.add_vertex v c).2.vertices.length := by
  cases h : mapFind (quantKey v) m.vertex_map with
  | none => rw [add_vertex_fresh m v c h]; simp
  | some i => rw [add_vertex_found m v c i h]

theorem add_vertex_idx_lt {m : Mesh} (hwf : WF m) (v c : Q3) :
    (m.add_vertex v c).1 < (m.add_vertex v c).2.vertices.length := by
  cases h : mapFind (quantKey v) m.vertex_map with
  | none => rw [add_vertex_fresh m v c h]; simp
  | some i =>
      rw [add_vertex_found m v c i h]
      exact hwf.1 _ (mapFind_mem h)

theorem add_vertex_wf {m : Mesh} (hwf : WF m) (v c : Q3) :
    WF (m.add_vertex v c).2 := by
  cases h : mapFind (quantKey v) m.vertex_map with
  | some i => rw [add_vertex_found m v c i h]; exact hwf
  | none =>
      rw [add_vertex_fresh m v c h]
      obtain ⟨h1, h2, h3, h4⟩ := hwf
      refine ⟨?_, ?_, ?_, ?_⟩
      · intro kv hkv
        rcases List.mem_cons.mp hkv with heq | hmem
        · subst heq; simp
        · have := h1 kv hmem; simp; omega
      · intro i hi
        have := h2 i hi; simp; omega
      · simp [h3]
      · intro kv1 hkv1 kv2 hkv2 hval
        rcases List.mem_cons.mp hkv1 with he1 | hm1 <;>
          rcases List.mem_cons.mp hkv2 with he2 | hm2
        · rw [he1, he2]
        · subst he1
          have := h1 kv2 hm2
          simp at hval
          omega
        · subst he2
          have := h1 kv1 hm1
          simp at hval
          omega
        · exact h4 kv1 hm1 kv2 hm2 hval

theorem wf_empty : WF emptyMesh := by decide

/-! ### Lemmas about cell processing -/

theorem processBoundary_stats (proj : Projector) (radius : ℚ) :
    ∀ (bl : List (ℚ × ℚ)) (m : Mesh) (s : ProcessingStats),
      (processBoundary proj radius bl m s).2.1.pentagon_count = s.pentagon_count ∧
      (processBoundary proj radius bl m s).2.1.hexagon_count = s.hexagon_count ∧
      (processBoundary proj radius bl m s).2.1.cells_processed = s.cells_processed
  | [], m, s => by simp [processBoundary]
  | (lat, lng) :: rest, m, s => by
      rw [processBoundary]
      split
      · exact processBoundary_stats proj radius rest _ s
      · exact processBoundary_stats proj radius rest m _

theorem processBoundary_spec (proj : Projector) (radius : ℚ) :
    ∀ (bl : List (ℚ × ℚ)) (m : Mesh) (s : ProcessingStats), WF m →
      WF (processBoundary proj radius bl m s).1 ∧
      m.vertices.length ≤ (processBoundary proj radius bl m s).1.vertices.length ∧
      (processBoundary proj radius bl m s).1.indices = m.indices ∧
      (∀ i ∈ (processBoundary proj radius bl m s).2.2,
        i < (processBoundary proj radius bl m s).1.vertices.length)
  | [], m, s, hwf => by simpa [processBoundary] using hwf
  | (lat, lng) :: rest, m, s, hwf => by
      rw [processBoundary]
      split
      · have hwf' := add_vertex_wf hwf (toQ3 (proj lat lng radius)) (1, 1, 1)
        have hlt := add_vertex_idx_lt hwf (toQ3 (proj lat lng radius)) (1, 1, 1)
        have hle := add_vertex_len_le m (toQ3 (proj lat lng radius)) (1, 1, 1)
        have hind := add_vertex_indices m (toQ3 (proj lat lng radius)) (1, 1, 1)
        obtain ⟨ih1, ih2, ih3, ih4⟩ := processBoundary_spec proj radius rest _ s hwf'
        refine ⟨ih1, le_trans hle ih2, by rw [ih3, hind], ?_⟩
        intro i hi
        rcases List.mem_cons.mp hi with heq | hmem
        · subst heq; exact lt_of_lt_of_le hlt ih2
        · exact ih4 i hmem
      · exact processBoundary_spec proj radius rest m _ hwf

theorem triangulate_pentagon_mem {cidx : ℕ} {bl : List ℕ} {t : ℕ × ℕ × ℕ}
    (ht : t ∈ triangulate_pentagon cidx bl) :
    t.1 = cidx ∧ t.2.1 ∈ bl ∧ t.2.2 ∈ bl := by
  simp only [triangulate_pentagon, List.mem_map, List.mem_range] at ht
  obtain ⟨i, hi, rfl⟩ := ht
  have hmod : (i + 1) % bl.length < bl.length := Nat.mod_lt _ (by omega)
  refine ⟨rfl, ?_, ?_⟩
  · rw [List.getD_eq_getElem _ _ hi]; exact List.getElem_mem hi
  · rw [List.getD_eq_getElem _ _ hmod]; exact List.getElem_mem hmod

theorem foldl_add_triangle_spec :
    ∀ (ts : List (ℕ × ℕ × ℕ)) (m : Mesh),
      (ts.foldl Mesh.add_triangle m).vertices = m.vertices ∧
      (ts.foldl Mesh.add_triangle m).colors = m.colors ∧
      (ts.foldl Mesh.add_triangle m).vertex_map = m.vertex_map ∧
      (∀ i ∈ (ts.foldl Mesh.add_triangle m).indices,
        i ∈ m.indices ∨ ∃ t ∈ ts, i = t.1 ∨ i = t.2.1 ∨ i = t.2.2)
  | [], m => by simp
  | t :: ts, m => by
      obtain ⟨ih1, ih2, ih3, ih4⟩ := foldl_add_triangle_spec ts (m.add_triangle t)
      simp only [List.foldl_cons]
      refine ⟨ih1, ih2, ih3, ?_⟩
      intro i hi
      rcases ih4 i hi with hmem | ⟨t', ht', hcomp⟩
      · simp only [Mesh.add_triangle, List.mem_append] at hmem
        rcases hmem with hold | hnew
        · exact Or.inl hold
        · refine Or.inr ⟨t, List.mem_cons_self t ts, ?_⟩
          simpa using hnew
      · exact Or.inr ⟨t', List.mem_cons_of_mem t ht', hcomp⟩

theorem finishCell_wf {c : ℕ × Mesh} {b : Mesh × ProcessingStats × List ℕ}
    (hwfb : WF b.1) (hc : c.1 < b.1.vertices.length)
    (hidx : ∀ i ∈ b.2.2, i < b.1.vertices.length) :
    WF (finishCell c b).mesh := by
  rw [finishCell]
  split
  · obtain ⟨hf1, hf2, hf3, hf4⟩ :=
      foldl_add_triangle_spec (triangulate_pentagon c.1 b.2.2) b.1
    obtain ⟨g1, g2, g3, g4⟩ := hwfb
    refine ⟨?_, ?_, ?_, ?_⟩
    · intro kv hkv
      rw [hf3] at hkv
      rw [hf1]
      exact g1 kv hkv
    · intro i hi
      rw [hf1]
      rcases hf4 i hi with hold | ⟨t, ht, hcomp⟩
      · exact g2 i hold
      · obtain ⟨hc1, hm1, hm2⟩ := triangulate_pentagon_mem ht
        rcases hcomp with h | h | h
        · rw [h, hc1]; exact hc
        · rw [h]; exact hidx _ hm1
        · rw [h]; exact hidx _ hm2
    · rw [hf1, hf2]; exact g3
    · intro kv1 h1 kv2 h2
      rw [hf3] at h1 h2
      exact g4 kv1 h1 kv2 h2
  · exact hwfb

theorem process_single_cell_wf {proj : Projector} {radius : ℚ} {cd : CellData}
    {m : Mesh} {s : ProcessingStats} (hwf : WF m) :
    WF (process_single_cell proj radius cd m s).mesh := by
  rw [process_single_cell]
  split
  · have hwfc := add_vertex_wf hwf (toQ3 (proj cd.centerLat cd.centerLng radius)) (1, 1, 1)
    have hltc := add_vertex_idx_lt hwf (toQ3 (proj cd.centerLat cd.centerLng radius)) (1, 1, 1)
    obtain ⟨hb1, hb2, hb3, hb4⟩ :=
      processBoundary_spec proj radius cd.boundary _ (bumpShapeCount cd s) hwfc
    exact finishCell_wf hb1 (lt_of_lt_of_le hltc hb2) hb4
  · exact hwf

theorem processCells_wf (proj : Projector) (radius : ℚ) :
    ∀ (cells : List CellData) (m : Mesh) (s : ProcessingStats), WF m →
      WF (processCells proj radius cells m s).1
  | [], m, s, hwf => hwf
  | cd :: rest, m, s, hwf => by
      rw [processCells]
      exact processCells_wf proj radius rest _ _ (process_single_cell_wf hwf)

/-! ### Lemmas about the binary export -/

theorem bytesConcat_length {f : α → List ℕ} {k : ℕ} (h : ∀ x, (f x).length = k) :
    ∀ l : List α, (bytesConcat f l).length = l.length * k
  | [] => by simp [bytesConcat]
  | x :: xs => by
      simp [bytesConcat, h, bytesConcat_length h xs, Nat.succ_mul]
      omega

theorem encTriple_length {enc : ℚ → List ℕ} (henc : ∀ q, (enc q).length = 4)
    (v : Q3) : (encTriple enc v).length = 12 := by
  simp [encTriple, henc]

theorem decodeU32s_concat :
    ∀ l : List ℕ,
      decodeU32s (bytesConcat (fun i => u32le (i % 4294967296)) l) =
        l.map (fun i => i % 4294967296)
  | [] => by simp [bytesConcat, decodeU32s]
  | i :: l => by
      have hn : i % 4294967296 < 4294967296 := Nat.mod_lt _ (by omega)
      have ih := decodeU32s_concat l
      simp only [bytesConcat, u32le, List.cons_append, List.nil_append,
        List.append_eq, decodeU32s, List.map_cons] at ih ⊢
      rw [ih]
      congr 1
      omega

/-! ### Claim theorems -/

/-- C1 counterexample: running the chunk pipeline with world resolution 0
and chunk resolution 0 does not succeed with 122 chunks; it fails
immediately with the chunk-resolution configuration error (shown at the
concrete radius 10 used by the binary, with a concrete grid provider — the
failure occurs before the provider is consulted). -/
theorem C1_counterexample :
    gen_world_chunks enc0 trivProv trivProj 10 0 0 =
      .error (.chunkResNotBelowWorldRes 0 0) := rfl

/-- C1 (amended): running the chunk pipeline with world resolution 0 and
chunk resolution 0 always fails with the configuration error that chunk
resolution must be lower than world resolution, producing no chunks,
meshes, or file pairs, for every encoder, grid provider, projector and
radius. -/
theorem C1_amended_thm (enc : ℚ → List ℕ) (prov : H3Provider)
    (proj : Projector) (radius : ℚ) :
    gen_world_chunks enc prov proj radius 0 0 =
      .error (.chunkResNotBelowWorldRes 0 0) := rfl

/-- C6: for all resolution arguments with `chunk_res ≥ world_res`,
`gen_world_chunks` fails with the configuration error before any cell
processing: the result is the bare error, so no cell is processed, no mesh
is built and no output is produced. -/
theorem C6_thm (enc : ℚ → List ℕ) (prov : H3Provider) (proj : Projector)
    (radius : ℚ) (world_res chunk_res : ℕ) (h : world_res ≤ chunk_res) :
    gen_world_chunks enc prov proj radius world_res chunk_res =
      .error (.chunkResNotBelowWorldRes chunk_res world_res) := by
  rw [gen_world_chunks, if_pos h]

/-- C6 witness: the configuration failure at the concrete arguments
`world_res = chunk_res = 0`. -/
theorem C6_witness :
    gen_world_chunks enc0 trivProv trivProj 10 0 0 =
      .error (.chunkResNotBelowWorldRes 0 0) :=
  C6_thm enc0 trivProv trivProj 10 0 0 (by decide)

/-- C7: when the projected cell center has a non-finite coordinate,
`process_single_cell` returns the invalid-coordinates error, leaves the
mesh exactly unchanged (zero vertices and zero triangles contributed), and
increments `invalid_coords` by exactly 1. -/
theorem C7_thm (proj : Projector) (radius : ℚ) (cd : CellData) (m : Mesh)
    (s : ProcessingStats)
    (h : allFinite (proj cd.centerLat cd.centerLng radius) = false) :
    (process_single_cell proj radius cd m s).result =
        .error .invalidCoordinates ∧
    (process_single_cell proj radius cd m s).mesh = m ∧
    (process_single_cell proj radius cd m s).stats.invalid_coords =
      s.invalid_coords + 1 := by
  rw [process_single_cell, if_neg (by simp [h])]
  refine ⟨rfl, rfl, ?_⟩
  show (bumpShapeCount cd s).invalid_coords + 1 = s.invalid_coords + 1
  rw [bumpShapeCount]
  split <;> rfl

/-- C7 witness: a concrete cell whose projected center is non-finite. -/
theorem C7_witness :
    (process_single_cell projBad 10 cd0 emptyMesh emptyStats).result =
        .error .invalidCoordinates ∧
    (process_single_cell projBad 10 cd0 emptyMesh emptyStats).mesh =
        emptyMesh ∧
    (process_single_cell projBad 10 cd0 emptyMesh emptyStats).stats.invalid_coords =
      emptyStats.invalid_coords + 1 :=
  C7_thm projBad 10 cd0 emptyMesh emptyStats rfl

/-- C10: every call to `process_single_cell` increments
`pentagon_count + hexagon_count` by exactly 1, including failing calls;
consequently (second conjunct, at a concrete failing run) the shape
counters count attempted cells and can exceed `cells_processed`. -/
theorem C10_thm :
    (∀ (proj : Projector) (radius : ℚ) (cd : CellData) (m : Mesh)
        (s : ProcessingStats),
      (process_single_cell proj radius cd m s).stats.pentagon_count +
          (process_single_cell proj radius cd m s).stats.hexagon_count =
        s.pentagon_count + s.hexagon_count + 1) ∧
    ((processCells projBad 10 [cd0] emptyMesh emptyStats).2.pentagon_count +
          (processCells projBad 10 [cd0] emptyMesh emptyStats).2.hexagon_count =
        1 ∧
      (processCells projBad 10 [cd0] emptyMesh emptyStats).2.cells_processed = 0) := by
  constructor
  · intro proj radius cd m s
    rw [process_single_cell]
    split
    · obtain ⟨hp, hh, _⟩ := processBoundary_stats proj radius cd.boundary
        (m.add_vertex (toQ3 (proj cd.centerLat cd.centerLng radius)) (1, 1, 1)).2
        (bumpShapeCount cd s)
      rw [finishCell]
      split
      all_goals
        show (processBoundary _ _ _ _ _).2.1.pentagon_count +
            (processBoundary _ _ _ _ _).2.1.hexagon_count =
          s.pentagon_count + s.hexagon_count + 1
      all_goals rw [hp, hh, bumpShapeCount]
      all_goals split <;> simp <;> omega
    · show (bumpShapeCount cd s).pentagon_count +
          (bumpShapeCount cd s).hexagon_count =
        s.pentagon_count + s.hexagon_count + 1
      rw [bumpShapeCount]
      split <;> simp <;> omega
  · exact ⟨by decide, by decide⟩

/-- C2 counterexample: `write_binary_data` does not fail on a triangle
index exceeding the `u32` range; at the concrete mesh whose only stored
index is `2^32 + 5` it silently writes the narrowed value — the same four
bytes as for the index `5`. -/
theorem C2_counterexample :
    write_binary_data enc0 meshBig = write_binary_data enc0 meshSmall ∧
    write_binary_data enc0 meshBig = [5, 0, 0, 0] :=
  ⟨rfl, rfl⟩

/-- C2 (amended): `write_binary_data` never fails on index range; each
triangle index is written as its value reduced `% 2^32` (Rust's `as u32`
narrowing), so decoding the index section of the written bytes yields the
indices reduced modulo `2^32`, silently narrowed whenever they exceed the
`u32` range. -/
theorem C2_amended_thm (enc : ℚ → List ℕ) (m : Mesh)
    (henc : ∀ q, (enc q).length = 4) :
    decodeU32s ((write_binary_data enc m).drop
        (m.vertices.length * 12 + m.colors.length * 12)) =
      m.indices.map (fun i => i % 4294967296) := by
  have hv := bytesConcat_length (encTriple_length henc) m.vertices
  have hcl := bytesConcat_length (encTriple_length henc) m.colors
  rw [write_binary_data,
    List.drop_left' (by rw [List.length_append, hv, hcl])]
  exact decodeU32s_concat m.indices

/-- C2 witness: decoding the index section written for the out-of-range
index `2^32 + 5` yields the narrowed value `5`. -/
theorem C2_witness :
    decodeU32s ((write_binary_data enc0 meshBig).drop
        (meshBig.vertices.length * 12 + meshBig.colors.length * 12)) = [5] :=
  C2_amended_thm enc0 meshBig (fun _ => rfl)

/-- C4: for every mesh satisfying the data-model invariants (parallel
vertex/color sequences, and an index sequence made of whole triangles),
the byte length of the binary buffer written by `write_binary_data` equals
`vertexCount*12 + vertexCount*attrSize + triangleCount*3*4` with
`attrSize = 12` (the color mode this exporter uses). -/
theorem C4_thm (enc : ℚ → List ℕ) (m : Mesh)
    (henc : ∀ q, (enc q).length = 4)
    (hc : m.colors.length = m.vertices.length)
    (hi : 3 ∣ m.indices.length) :
    (write_binary_data enc m).length =
      (Mesh.stats m).vertex_count * 12 + (Mesh.stats m).vertex_count * 12 +
        (Mesh.stats m).triangle_count * 3 * 4 := by
  have hv := bytesConcat_length (encTriple_length henc) m.vertices
  have hcl := bytesConcat_length (encTriple_length henc) m.colors
  have hu : ∀ i : ℕ, (u32le (i % 4294967296)).length = 4 := fun _ => rfl
  have hil := bytesConcat_length hu m.indices
  simp only [write_binary_data, List.length_append, hv, hcl, hil, Mesh.stats]
  have hdiv := Nat.div_mul_cancel hi
  omega

/-- C4 witness: the concrete one-vertex one-triangle mesh produces a
36-byte buffer (`1*12 + 1*12 + 1*3*4`). -/
theorem C4_witness : (write_binary_data enc0 meshW).length = 36 :=
  C4_thm enc0 meshW (fun _ => rfl) rfl ⟨1, rfl⟩

/-- C5: the scene descriptor built by `export_gltf` describes three buffer
views laid out contiguously and non-overlappingly in the order positions,
colors, indices; the offsets and lengths match the bytes written by
`write_binary_data` exactly (each view's byte range slices out exactly the
corresponding section), and `buffers[0].byteLength` is the sum of the
three view lengths and the length of the written file. -/
theorem C5_thm (enc : ℚ → List ℕ) (m : Mesh)
    (henc : ∀ q, (enc q).length = 4) :
    (export_gltf enc m).1.view0Offset = 0 ∧
    (export_gltf enc m).1.view1Offset =
      (export_gltf enc m).1.view0Offset + (export_gltf enc m).1.view0Length ∧
    (export_gltf enc m).1.view2Offset =
      (export_gltf enc m).1.view1Offset + (export_gltf enc m).1.view1Length ∧
    (export_gltf enc m).1.bufferByteLength =
      (export_gltf enc m).1.view0Length + (export_gltf enc m).1.view1Length +
        (export_gltf enc m).1.view2Length ∧
    ((export_gltf enc m).2).length = (export_gltf enc m).1.bufferByteLength ∧
    ((export_gltf enc m).2).take (export_gltf enc m).1.view0Length =
      bytesConcat (encTriple enc) m.vertices ∧
    (((export_gltf enc m).2).drop (export_gltf enc m).1.view1Offset).take
        (export_gltf enc m).1.view1Length =
      bytesConcat (encTriple enc) m.colors ∧
    ((export_gltf enc m).2).drop (export_gltf enc m).1.view2Offset =
      bytesConcat (fun i => u32le (i % 4294967296)) m.indices := by
  have hv := bytesConcat_length (encTriple_length henc) m.vertices
  have hcl := bytesConcat_length (encTriple_length henc) m.colors
  have hu : ∀ i : ℕ, (u32le (i % 4294967296)).length = 4 := fun _ => rfl
  have hil := bytesConcat_length hu m.indices
  simp only [export_gltf]
  refine ⟨?_, ?_, ?_, ?_, ?_, ?_, ?_, ?_⟩
  · trivial
  · omega
  · trivial
  · trivial
  · simp only [write_binary_data, List.length_append, hv, hcl, hil]
  · simp only [write_binary_data, List.append_assoc]
    exact List.take_left' hv
  · simp only [write_binary_data, List.append_assoc]
    rw [List.drop_left' hv, List.take_left' hcl]
  · simp only [write_binary_data]
    exact List.drop_left' (by rw [List.length_append, hv, hcl])

/-- C5 witness: at the concrete mesh, the written byte count equals the
descriptor's buffer byte length. -/
theorem C5_witness :
    ((export_gltf enc0 meshW).2).length =
      (export_gltf enc0 meshW).1.bufferByteLength :=
  (C5_thm enc0 meshW (fun _ => rfl)).2.2.2.2.1

/-- C3 counterexample: at the reachable mesh state that already contains
position `pA`, calling `add_vertex` twice more with `pA` leaves the vertex
count unchanged — it is not one greater than before the two calls, so the
claim's universal quantification over every mesh state fails. -/
theorem C3_counterexample :
    ¬ ((((emptyMesh.add_vertex pA cW).2.add_vertex pA cW).2.add_vertex pA
          cW).2.vertices.length =
        (emptyMesh.add_vertex pA cW).2.vertices.length + 1) := by
  decide

/-- C3 (amended): calling `add_vertex` twice with the same position `p`
(and any attribute values) returns the same index both times and leaves
the color sequence as it was after the first call (the duplicate's
attribute is discarded); the vertex count after the two calls is one
greater than before them when `p`'s quantization key is not already in the
mesh's map, and unchanged when it is. -/
theorem C3_amended_thm (m : Mesh) (p c1 c2 : Q3) :
    ((m.add_vertex p c1).2.add_vertex p c2).1 = (m.add_vertex p c1).1 ∧
    ((m.add_vertex p c1).2.add_vertex p c2).2.colors =
      (m.add_vertex p c1).2.colors ∧
    (mapFind (quantKey p) m.vertex_map = none →
      ((m.add_vertex p c1).2.add_vertex p c2).2.vertices.length =
        m.vertices.length + 1) ∧
    (∀ i, mapFind (quantKey p) m.vertex_map = some i →
      ((m.add_vertex p c1).2.add_vertex p c2).2.vertices.length =
        m.vertices.length) := by
  cases h : mapFind (quantKey p) m.vertex_map with
  | some i =>
      rw [add_vertex_found m p c1 i h]
      dsimp only
      rw [add_vertex_found m p c2 i h]
      refine ⟨rfl, rfl, ?_, ?_⟩
      · intro hn; exact Option.noConfusion hn
      · intro i' _; rfl
  | none =>
      rw [add_vertex_fresh m p c1 h]
      dsimp only
      have e2 : mapFind (quantKey p)
          ((quantKey p, m.vertices.length) :: m.vertex_map) =
            some m.vertices.length := by
        rw [mapFind]; simp
      rw [add_vertex_found ⟨m.vertices ++ [p], m.colors ++ [c1], m.indices,
        (quantKey p, m.vertices.length) :: m.vertex_map⟩ p c2
        m.vertices.length e2]
      refine ⟨rfl, rfl, ?_, ?_⟩
      · intro _; simp
      · intro i hi; exact Option.noConfusion hi

/-- C3 witness: on the empty mesh (fresh key) the two duplicate calls
leave the vertex count at exactly one more than before. -/
theorem C3_witness :
    ((emptyMesh.add_vertex pA cW).2.add_vertex pA cW).2.vertices.length =
      emptyMesh.vertices.length + 1 :=
  (C3_amended_thm emptyMesh pA cW cW).2.2.1 rfl

/-- C8 counterexample: positions `pA = (2⁻³⁰,0,0)` and `pB = (-2⁻³¹,0,0)`
differ by more than the quantization epsilon `1e-9` in the first
coordinate yet collapse to the same index (truncation toward zero maps
both scaled coordinates to 0), while `pC = (9·2⁻³³,0,0)` differs from
`pA` by less than the epsilon in every coordinate yet receives a distinct
index (the scaled coordinates straddle the truncation boundary at 1). -/
theorem C8_counterexample :
    (|pB.1 - pA.1| > quantEps ∧
      ((emptyMesh.add_vertex pA cW).2.add_vertex pB cW).1 =
        (emptyMesh.add_vertex pA cW).1) ∧
    (|pC.1 - pA.1| < quantEps ∧ |pC.2.1 - pA.2.1| < quantEps ∧
      |pC.2.2 - pA.2.2| < quantEps ∧
      ((emptyMesh.add_vertex pA cW).2.add_vertex pC cW).1 ≠
        (emptyMesh.add_vertex pA cW).1) := by
  refine ⟨⟨?_, by decide⟩, ?_, ?_, ?_, by decide⟩
  · show |pB.1 - pA.1| > quantEps
    norm_num [pA, pB, quantEps, Rat.mkRat_eq_div, lt_abs]
  · show |pC.1 - pA.1| < quantEps
    norm_num [pA, pC, quantEps, Rat.mkRat_eq_div, abs_lt]
  · show |pC.2.1 - pA.2.1| < quantEps
    norm_num [pA, pC, quantEps, Rat.mkRat_eq_div]
  · show |pC.2.2 - pA.2.2| < quantEps
    norm_num [pA, pC, quantEps, Rat.mkRat_eq_div]

/-- C8 (amended): for a well-formed mesh, two successive `add_vertex`
calls receive the same index exactly when their positions have equal
quantization keys (truncation toward zero of each coordinate scaled by
1e9); key equality — not the epsilon-distance criterion — decides
collapsing. -/
theorem C8_amended_thm (m : Mesh) (p q cp cq : Q3) (hwf : WF m) :
    ((m.add_vertex p cp).2.add_vertex q cq).1 = (m.add_vertex p cp).1 ↔
      quantKey q = quantKey p := by
  cases h1 : mapFind (quantKey p) m.vertex_map with
  | some i =>
      rw [add_vertex_found m p cp i h1]
      dsimp only
      cases h2 : mapFind (quantKey q) m.vertex_map with
      | some j =>
          rw [add_vertex_found m q cq j h2]
          constructor
          · intro hij
            exact hwf.2.2.2 (quantKey q, j) (mapFind_mem h2)
              (quantKey p, i) (mapFind_mem h1) hij
          · intro hk
            rw [hk, h1] at h2
            exact (Option.some.injEq .. ▸ h2).symm
      | none =>
          rw [add_vertex_fresh m q cq h2]
          have hlt : i < m.vertices.length := hwf.1 _ (mapFind_mem h1)
          constructor
          · intro heq
            exact absurd heq (by dsimp only; omega)
          · intro hk; rw [hk, h1] at h2; exact Option.noConfusion h2
  | none =>
      rw [add_vertex_fresh m p cp h1]
      dsimp only
      by_cases hk : quantKey p = quantKey q
      · have e2 : mapFind (quantKey q)
            ((quantKey p, m.vertices.length) :: m.vertex_map) =
              some m.vertices.length := by
          rw [mapFind]; simp [hk]
        rw [add_vertex_found ⟨m.vertices ++ [p], m.colors ++ [cp], m.indices,
          (quantKey p, m.vertices.length) :: m.vertex_map⟩ q cq
          m.vertices.length e2]
        exact iff_of_true rfl hk.symm
      · cases h2 : mapFind (quantKey q) m.vertex_map with
        | some j =>
            have e2 : mapFind (quantKey q)
                ((quantKey p, m.vertices.length) :: m.vertex_map) = some j := by
              rw [mapFind]; simp [hk, h2]
            rw [add_vertex_found ⟨m.vertices ++ [p], m.colors ++ [cp], m.indices,
              (quantKey p, m.vertices.length) :: m.vertex_map⟩ q cq j e2]
            have hlt : j < m.vertices.length := hwf.1 _ (mapFind_mem h2)
            exact iff_of_false (by dsimp only; omega) (fun hqp => hk hqp.symm)
        | none =>
            have e2 : mapFind (quantKey q)
                ((quantKey p, m.vertices.length) :: m.vertex_map) = none := by
              rw [mapFind]; simp [hk, h2]
            rw [add_vertex_fresh ⟨m.vertices ++ [p], m.colors ++ [cp], m.indices,
              (quantKey p, m.vertices.length) :: m.vertex_map⟩ q cq e2]
            exact iff_of_false (by dsimp only; simp) (fun hqp => hk hqp.symm)

/-- C8 witness: on the (well-formed) empty mesh, `pB` collapses onto `pA`
because their quantization keys are equal. -/
theorem C8_witness :
    ((emptyMesh.add_vertex pA cW).2.add_vertex pB cW).1 =
      (emptyMesh.add_vertex pA cW).1 :=
  (C8_amended_thm emptyMesh pA pB cW cW (by decide)).mpr (by decide)

/-- C9: for every mesh built by processing any sequence of cells through
`process_single_cell` (via the per-chunk loop) starting from the empty
mesh, every stored triangle index is strictly less than the vertex-sequence
length. -/
theorem C9_thm (proj : Projector) (radius : ℚ) (cells : List CellData) :
    ∀ i ∈ (processCells proj radius cells emptyMesh emptyStats).1.indices,
      i < (processCells proj radius cells emptyMesh emptyStats).1.vertices.length :=
  (processCells_wf proj radius cells emptyMesh emptyStats wf_empty).2.1

/-- C9 witness: a concrete one-cell run whose mesh stores index 0, which
is below the vertex count. -/
theorem C9_witness :
    0 ∈ (processCells projGood 10 [cdTri] emptyMesh emptyStats).1.indices ∧
    0 < (processCells projGood 10 [cdTri] emptyMesh emptyStats).1.vertices.length :=
  ⟨by decide, C9_thm projGood 10 [cdTri] 0 (by decide)⟩

end H3WorldGeo
